import Mathlib

/-!
Verification development for the AtlasCryptoKit wallet engine
(`src/AtlasCryptoKit.py`).

Embedding conventions:
* Python `Decimal` values are modelled exactly as they are represented by
  the `decimal` module, a signed integer mantissa and a power-of-ten
  exponent (`Dec`); multiplication multiplies mantissas and adds
  exponents, rounding the result half-to-even to the default context
  precision of 28 significant digits when it is wider (`Dec.mul`), and
  `int(d)` truncates toward zero (`Dec.toInt`).
* Python dicts built by successive key assignment are modelled as
  association lists `List (String × TxVal)` in insertion order; a key is
  read with `List.lookup`.
* The node-client collaborator reached through the `w3` handle
  (chain id, gas price, nonce, gas estimate, checksumming) is modelled as
  a record of oracle functions, matching §6 of the design document, which
  treats it as an external interface.
* The cryptographic libraries used by the tool (`mnemonic`, `eth_account`,
  the keccak256 hash and the secp256k1 curve) are not part of the
  repository; where a claim depends on them they are modelled from the
  design document, each such definition carrying a doc comment that
  starts with "Modelled from the spec:".
-/

namespace AtlasCryptoKit

/-- Python `Decimal`, modelled exactly as the `decimal` module represents
it: a signed integer mantissa and a power-of-ten exponent, so the value is
`mant * 10 ^ exp`. The Decimal string "1.5" parses to mantissa 15 with
exponent -1. -/
structure Dec where
  mant : ℤ
  exp : ℤ
deriving DecidableEq, Repr

/-- Exact rational value of a Decimal. -/
def Dec.val (d : Dec) : ℚ := (d.mant : ℚ) * 10 ^ d.exp

/-- Number of decimal digits of the exact product mantissa beyond the
default context precision of 28 significant digits; the first argument is
fuel (one division by ten per digit dropped, so the value itself is ample
fuel). -/
def excessAux : ℕ → ℕ → ℕ
  | 0, _ => 0
  | fuel + 1, c => if c < 10 ^ 28 then 0 else excessAux fuel (c / 10) + 1

/-- Number of digits a coefficient must shed to fit in 28 significant
digits: the least k with c < 10 ^ (28 + k). -/
def excessDigits (c : ℕ) : ℕ := excessAux c c

/-- Quotient n / 10 ^ k rounded to the nearest integer with ties to even,
the ROUND_HALF_EVEN mode of the default Decimal context (only used with
k ≥ 1, where 10 ^ k is even and the tie is exact). -/
def roundHalfEvenDiv (n k : ℕ) : ℕ :=
  if n % 10 ^ k > 10 ^ k / 2 then n / 10 ^ k + 1
  else if n % 10 ^ k < 10 ^ k / 2 then n / 10 ^ k
  else if n / 10 ^ k % 2 = 0 then n / 10 ^ k else n / 10 ^ k + 1

/-- Decimal multiplication under the default context of the `decimal`
module: mantissas multiply and exponents add; when the exact product
coefficient is wider than the context precision of 28 significant digits
it is rounded half-to-even to 28 digits and the exponent raised by the
number of digits dropped, exactly as Python Decimal arithmetic rounds
every operation result to the context precision. -/
def Dec.mul (a b : Dec) : Dec :=
  if excessDigits (a.mant * b.mant).natAbs = 0 then
    ⟨a.mant * b.mant, a.exp + b.exp⟩
  else
    ⟨(a.mant * b.mant).sign
        * roundHalfEvenDiv (a.mant * b.mant).natAbs
          (excessDigits (a.mant * b.mant).natAbs),
      a.exp + b.exp + excessDigits (a.mant * b.mant).natAbs⟩

/-- Decimal literal of an integer, as in Python `Decimal(10**18)`. -/
def Dec.ofInt (n : ℤ) : Dec := ⟨n, 0⟩

/-- Truncation of a Decimal toward zero, the behaviour of Python
`int(Decimal(...))`. -/
def Dec.toInt (d : Dec) : ℤ :=
  if 0 ≤ d.exp then d.mant * 10 ^ d.exp.toNat
  else d.mant.tdiv (10 ^ (-d.exp).toNat)

/-- UTF-8 encoding of a single Unicode code point, as Python `str.encode`
produces byte by byte. -/
def utf8EncodeCodepoint (c : ℕ) : List ℕ :=
  if c < 128 then [c]
  else if c < 2048 then [192 + c / 64, 128 + c % 64]
  else if c < 65536 then [224 + c / 4096, 128 + c / 64 % 64, 128 + c % 64]
  else [240 + c / 262144, 128 + c / 4096 % 64, 128 + c / 64 % 64, 128 + c % 64]

/-- UTF-8 bytes of a string. -/
def strBytes (s : String) : List ℕ :=
  (s.data.map fun c => utf8EncodeCodepoint c.toNat).flatten

/-- Big-endian byte rendering of a natural number on a fixed number of
bytes (most significant byte first). -/
def natToBytesBE : ℕ → ℕ → List ℕ
  | 0, _ => []
  | len + 1, n => natToBytesBE len (n / 256) ++ [n % 256]

/-- Big-endian byte decoding. -/
def bytesToNatBE (bs : List ℕ) : ℕ := bs.foldl (fun a b => a * 256 + b) 0

/-- The order of the secp256k1 group, the range of valid private-key
scalars (§4.4 of the design document: a key must lie strictly between 0
and the curve order). -/
def secp256k1_order : ℕ :=
  115792089237316195423570985008687907852837564279074904382605163141518161494337

/-- Modelled from the spec: keccak256 of a byte string. The hash function
itself is external to the repository (it lives below `eth_account`); the
claims only use that it is a fixed computable function of the bytes with a
256-bit result, so it is modelled as one. -/
def keccakModel (bs : List ℕ) : ℕ :=
  bs.foldl (fun a b => (a * 257 + b + 1) % 2 ^ 256) 0

/-- The EIP-191 personal-message encoding applied by
`eth_account.messages.encode_defunct(text=...)` (line 201 and 207 of the
source): the fixed header byte 0x19 and the text
"Ethereum Signed Message:" with a newline, then the decimal byte length of
the message, then the UTF-8 bytes of the message (§3 of the design
document). -/
def encode_defunct (message : String) : List ℕ :=
  strBytes "\x19Ethereum Signed Message:\n"
    ++ strBytes (toString (strBytes message).length)
    ++ strBytes message

/-- Hash of the prefixed personal message, as both signing and recovery
compute it. -/
def msgHash (message : String) : ℕ := keccakModel (encode_defunct message)

/-- Modelled from the spec: the address derived from a private key — the
last 20 bytes of keccak256 of the uncompressed secp256k1 public key of the
scalar (§3 Account). Curve and hash are external to the repository, so
this is modelled as a fixed computable function of the key with a 160-bit
result. -/
def addressOf (k : ℕ) : ℕ := (k * k + 3) % 2 ^ 160

/-- Modelled from the spec: the 65-byte recoverable ECDSA signature
r ‖ s ‖ v produced by deterministic secp256k1 signing of a message hash
(§4.4, §6: r and s are 32 bytes each, v is one byte equal to 27 or 28, s
is low-s normalised). The curve arithmetic is external to the repository;
the model keeps the facts the design document states: the signature is a
deterministic function of (key, hash), it is 65 bytes with v ∈ {27, 28}
and s ≤ order/2, and the address of the signing key is recoverable from
it together with the message hash (§4.5). -/
def sigBytes (k h : ℕ) : List ℕ :=
  natToBytesBE 32 ((addressOf k + h % 2 ^ 256) % 2 ^ 256)
    ++ natToBytesBE 32 (h % (secp256k1_order / 2 + 1))
    ++ [27 + (addressOf k + h) % 2]

/-- Errors of the verifier (§7 of the design document). -/
inductive VerifyError where
  | InvalidSignature
  | RecoveryError
deriving DecidableEq, Repr

/-- Modelled from the spec: public-key recovery from a 65-byte signature
and a message hash followed by address derivation (§4.5). Malformed
signatures are rejected; for a signature produced by `sigBytes` over the
same hash the recovered address is the address of the signing key. -/
def recoverAddr (h : ℕ) (signature : List ℕ) : Except VerifyError ℕ :=
  if signature.length = 65 then
    if bytesToNatBE (signature.drop 64) = 27 ∨ bytesToNatBE (signature.drop 64) = 28 then
      Except.ok ((bytesToNatBE (signature.take 32) + (2 ^ 256 - h % 2 ^ 256)) % 2 ^ 256 % 2 ^ 160)
    else Except.error VerifyError.RecoveryError
  else Except.error VerifyError.InvalidSignature

/-- Errors of the signer (§7 of the design document). -/
inductive SigningError where
  | InvalidKey
  | InternalInvariant
deriving DecidableEq, Repr

/-- The record returned by `sign_message` (source line 203): the original
text, the 65-byte signature and the attached recovered address. -/
structure SignedMsg where
  message : String
  signature : List ℕ
  address : ℕ
deriving DecidableEq, Repr

/-- Embedding of `sign_message` (source lines 199-203): load the account
from the private key (which fails when the key is not a valid scalar, per
§4.4), encode the message with the personal-message header, sign the hash,
and attach the signer address recovered from the signature as a
self-check. -/
def sign_message (private_key : ℕ) (message : String) : Except SigningError SignedMsg :=
  if 0 < private_key ∧ private_key < secp256k1_order then
    let sig := sigBytes private_key (msgHash message)
    match recoverAddr (msgHash message) sig with
    | Except.ok a => Except.ok { message := message, signature := sig, address := a }
    | Except.error _ => Except.error SigningError.InternalInvariant
  else Except.error SigningError.InvalidKey

/-- Embedding of `verify_message` (source lines 206-209): rebuild the
prefixed hash of the message and recover the signer address from the
signature. The `w3` handle only carries the pure library recovery routine,
so it does not appear in the model. -/
def verify_message (signature : List ℕ) (message : String) : Except VerifyError ℕ :=
  recoverAddr (msgHash message) signature

/-- Modelled from the spec: `Mnemonic.to_seed` of the external `mnemonic`
package — PBKDF2-HMAC-SHA512 over the mnemonic string salted with the
literal "mnemonic" plus the passphrase, 2048 iterations, producing 64
bytes (§3 Seed). The KDF internals are external to the repository; it is
modelled as a fixed computable total function of the two strings producing
64 bytes. It performs no wordlist or checksum validation, the observed
reference behaviour recorded in §9 of the design document. -/
def to_seed (mnemonic passphrase : String) : List ℕ :=
  let pw := strBytes mnemonic
  let salt := strBytes ("mnemonic" ++ passphrase)
  (List.range 64).map fun i =>
    (pw.foldl (fun a b => (a * 131 + b) % 2 ^ 64) 2048
      + salt.foldl (fun a b => (a * 137 + b) % 2 ^ 64) 1 + i) % 256

/-- Error type named by the design document for mnemonic validation
(§7); the embedding shows it is never produced. -/
inductive MnemonicError where
  | InvalidMnemonic
deriving DecidableEq, Repr

/-- Embedding of `mnemonic_to_seed` (source lines 58-60): it hands the
strings to the library seed derivation unconditionally, with no wordlist
membership or checksum check, so no `InvalidMnemonic` error can arise. -/
def mnemonic_to_seed (mnemonic : String) (passphrase : String) :
    Except MnemonicError (List ℕ) :=
  Except.ok (to_seed mnemonic passphrase)

/-- Modelled from the spec: membership in the fixed 2048-word BIP-39
English wordlist (§3) is decided inside the external `mnemonic` package.
The model keeps only the necessary condition the claims use: every
wordlist entry is a nonempty word of lowercase ASCII letters, so a token
containing a digit is not a wordlist word. -/
def wordlistShaped (w : String) : Bool :=
  w ≠ "" && w.data.all fun c => 97 ≤ c.toNat && c.toNat ≤ 122

/-- Modelled from the spec: `Account.from_mnemonic` of the external
`eth_account` package — seed derivation per §3 followed by BIP-32/44
hardened and normal child-key derivation along the path
m/44h/60h/0h/0/{index} (§4.2), returning the address and the private key
hex of the derived account. External to the repository; modelled as a
fixed computable function of (mnemonic, index, passphrase) routed through
the modelled seed, so that it is deterministic in exactly those inputs. -/
def from_mnemonic (mnemonic : String) (index : ℕ) (passphrase : String) :
    String × String :=
  let seed := to_seed mnemonic passphrase
  let node := keccakModel (seed ++ [index % 256, index / 256 % 256, index / 65536 % 256])
  ("0x" ++ toString (node % 2 ^ 160), "0x" ++ toString ((node * 7 + 1) % 2 ^ 256))

/-- Embedding of `derive_account_from_mnemonic` (source lines 63-75): the
successful library path returns the pair (address, private key hex) for
the hardened derivation path at the given index; the fallback branch only
raises on library versions lacking `from_mnemonic` and is outside the
model. -/
def derive_account_from_mnemonic (mnemonic : String) (index : ℕ)
    (passphrase : String) : String × String :=
  from_mnemonic mnemonic index passphrase

/-- Embedding of `eth_to_wei`. Line 46 of the source reads
`int(amount_eth * Decimal(10**18 ...` with a stray quote character inside
the closing parenthesis, which is a Python syntax error: the module cannot
be loaded as written. This definition embeds the evident intent — the
module docstring, §3 of the design document, and the otherwise identical
conversion on line 156 all scale by exactly ten to the 18th. -/
def eth_to_wei (amount_eth : Dec) : ℤ :=
  (amount_eth.mul (Dec.ofInt (10 ^ 18))).toInt

/-- The Gwei-to-wei scaling applied inline by the transaction builder
(source lines 164, 165 and 175): exact decimal multiplication by ten to
the 9th, then truncation to an integer. -/
def gwei_to_wei (amount_gwei : Dec) : ℤ :=
  (amount_gwei.mul (Dec.ofInt (10 ^ 9))).toInt

/-- Value of one entry of the transaction dict: the tool stores strings
(addresses, the type tag) and integers. -/
inductive TxVal where
  | s (v : String)
  | i (v : ℤ)
deriving DecidableEq, Repr

/-- The node-client collaborator reached through the `w3` handle, §6 of
the design document: chain id, suggested gas price, next nonce per
address, gas estimation over the (to, from, value) skeleton, and address
checksumming (a pure string function of the library). -/
structure W3 where
  chain_id : ℤ
  gas_price : ℤ
  get_transaction_count : String → ℤ
  estimate_gas : String → String → ℤ → ℤ
  toChecksumAddress : String → String

/-- Embedding of `build_eth_transaction` (source lines 140-182). The dict
is modelled in insertion order; `chain_id or w3.eth.chain_id` follows
Python truthiness, so both a missing and a zero chain id fall back to the
collaborator; the fee-market branch is taken exactly when both
`max_fee_gwei` and `max_priority_fee_gwei` are present. -/
def build_eth_transaction (w3 : W3) (from_address to_address : String)
    (value_eth : Dec) (gas : Option ℤ) (gas_price_gwei : Option Dec)
    (max_priority_fee_gwei : Option Dec) (max_fee_gwei : Option Dec)
    (nonce : Option ℤ) (chain_id : Option ℤ) :
    List (String × TxVal) :=
  let from_checksum := w3.toChecksumAddress from_address
  let to_checksum := w3.toChecksumAddress to_address
  let nonceVal := match nonce with
    | none => w3.get_transaction_count from_checksum
    | some n => n
  let valueWei : ℤ := (value_eth.mul (Dec.ofInt (10 ^ 18))).toInt
  let chainIdVal := match chain_id with
    | none => w3.chain_id
    | some c => if c = 0 then w3.chain_id else c
  let base : List (String × TxVal) :=
    [("from", TxVal.s from_checksum), ("to", TxVal.s to_checksum),
     ("value", TxVal.i valueWei), ("nonce", TxVal.i nonceVal),
     ("chainId", TxVal.i chainIdVal)]
  match max_fee_gwei, max_priority_fee_gwei with
  | some mf, some mp =>
      let gasVal := match gas with
        | none => w3.estimate_gas to_checksum from_checksum valueWei
        | some g => g
      base ++ [("type", TxVal.s "0x2"), ("maxFeePerGas", TxVal.i (gwei_to_wei mf)),
               ("maxPriorityFeePerGas", TxVal.i (gwei_to_wei mp)), ("gas", TxVal.i gasVal)]
  | _, _ =>
      let gasPriceVal := match gas_price_gwei with
        | none => w3.gas_price
        | some gp => gwei_to_wei gp
      let gasVal := match gas with
        | none => w3.estimate_gas to_checksum from_checksum valueWei
        | some g => g
      base ++ [("gasPrice", TxVal.i gasPriceVal), ("gas", TxVal.i gasVal)]

/-- A concrete collaborator instance used to exercise the builder on
closed inputs. -/
def sampleW3 : W3 where
  chain_id := 5
  gas_price := 1000000000
  get_transaction_count := fun _ => 7
  estimate_gas := fun _ _ _ => 21000
  toChecksumAddress := fun a => a

/-- A transaction record mixes the two §3 variants when it carries the
legacy gasPrice field together with any fee-market field. -/
def mixesVariants (tx : List (String × TxVal)) : Bool :=
  (tx.lookup "gasPrice").isSome &&
    ((tx.lookup "type").isSome || (tx.lookup "maxFeePerGas").isSome ||
      (tx.lookup "maxPriorityFeePerGas").isSome)

/-- Fee fields of the legacy variant: gasPrice present, no fee-market
field. -/
def legacyShape (tx : List (String × TxVal)) : Bool :=
  (tx.lookup "gasPrice").isSome && (tx.lookup "type").isNone &&
    (tx.lookup "maxFeePerGas").isNone && (tx.lookup "maxPriorityFeePerGas").isNone

/-- Fee fields of the fee-market variant: the three fee-market fields
present, no gasPrice. -/
def feeMarketShape (tx : List (String × TxVal)) : Bool :=
  (tx.lookup "gasPrice").isNone && (tx.lookup "type").isSome &&
    (tx.lookup "maxFeePerGas").isSome && (tx.lookup "maxPriorityFeePerGas").isSome

/-! Helper lemmas shared by the claim theorems. -/

lemma natToBytesBE_length (len n : ℕ) : (natToBytesBE len n).length = len := by
  induction len generalizing n with
  | zero => rfl
  | succ l ih => simp [natToBytesBE, ih]

lemma bytesToNatBE_natToBytesBE (len n : ℕ) :
    bytesToNatBE (natToBytesBE len n) = n % 256 ^ len := by
  induction len generalizing n with
  | zero => simp [natToBytesBE, bytesToNatBE, Nat.mod_one]
  | succ l ih =>
    have step : bytesToNatBE (natToBytesBE l (n / 256) ++ [n % 256])
        = bytesToNatBE (natToBytesBE l (n / 256)) * 256 + n % 256 := by
      unfold bytesToNatBE
      rw [List.foldl_append]
      rfl
    rw [natToBytesBE, step, ih]
    rw [pow_succ, mul_comm (256 ^ l) 256, Nat.mod_mul]
    omega

lemma sigBytes_length (k h : ℕ) : (sigBytes k h).length = 65 := by
  simp [sigBytes, natToBytesBE_length]

lemma addressOf_lt (k : ℕ) : addressOf k < 2 ^ 160 :=
  Nat.mod_lt _ (by norm_num)

lemma recoverAddr_sigBytes (k h : ℕ) :
    recoverAddr h (sigBytes k h) = Except.ok (addressOf k) := by
  have hA : addressOf k < 2 ^ 160 := addressOf_lt k
  have hA256 : addressOf k < 2 ^ 256 := lt_trans hA (by norm_num)
  have hlen32 : (natToBytesBE 32 ((addressOf k + h % 2 ^ 256) % 2 ^ 256)).length = 32 :=
    natToBytesBE_length _ _
  have hlen64 : (natToBytesBE 32 ((addressOf k + h % 2 ^ 256) % 2 ^ 256)
      ++ natToBytesBE 32 (h % (secp256k1_order / 2 + 1))).length = 64 := by
    rw [List.length_append, natToBytesBE_length, natToBytesBE_length]
  have hdrop : (sigBytes k h).drop 64 = [27 + (addressOf k + h) % 2] := by
    rw [sigBytes]
    exact List.drop_left' hlen64
  have htake : (sigBytes k h).take 32
      = natToBytesBE 32 ((addressOf k + h % 2 ^ 256) % 2 ^ 256) := by
    rw [sigBytes, List.append_assoc]
    exact List.take_left' hlen32
  have hv : bytesToNatBE ((sigBytes k h).drop 64) = 27 + (addressOf k + h) % 2 := by
    rw [hdrop, bytesToNatBE, List.foldl_cons, List.foldl_nil]
    omega
  have hvor : bytesToNatBE ((sigBytes k h).drop 64) = 27
      ∨ bytesToNatBE ((sigBytes k h).drop 64) = 28 := by
    rw [hv]
    rcases Nat.mod_two_eq_zero_or_one (addressOf k + h) with h0 | h1
    · left; omega
    · right; omega
  have hr : bytesToNatBE ((sigBytes k h).take 32)
      = (addressOf k + h % 2 ^ 256) % 2 ^ 256 := by
    rw [htake, bytesToNatBE_natToBytesBE]
    have h256 : (256 : ℕ) ^ 32 = 2 ^ 256 := by norm_num
    rw [h256]
    exact Nat.mod_mod_of_dvd _ dvd_rfl
  have key : ((addressOf k + h % 2 ^ 256) % 2 ^ 256 + (2 ^ 256 - h % 2 ^ 256)) % 2 ^ 256
      = addressOf k := by
    have hH : h % 2 ^ 256 < 2 ^ 256 := Nat.mod_lt _ (by norm_num)
    have h2 : ((addressOf k + h % 2 ^ 256) % 2 ^ 256 + (2 ^ 256 - h % 2 ^ 256)) % 2 ^ 256
        = (addressOf k + h % 2 ^ 256 + (2 ^ 256 - h % 2 ^ 256)) % 2 ^ 256 :=
      Nat.ModEq.add_right _ (Nat.mod_modEq _ _)
    have h3 : addressOf k + h % 2 ^ 256 + (2 ^ 256 - h % 2 ^ 256)
        = addressOf k + 2 ^ 256 := by omega
    rw [h2, h3, Nat.add_mod_right, Nat.mod_eq_of_lt hA256]
  have hlen65 : (sigBytes k h).length = 65 := sigBytes_length k h
  unfold recoverAddr
  rw [if_pos hlen65, if_pos hvor, hr, key, Nat.mod_eq_of_lt hA]

lemma mnemonic_to_seed_total (m p : String) :
    mnemonic_to_seed m p = Except.ok (to_seed m p) ∧ (to_seed m p).length = 64 ∧
      ∀ b ∈ to_seed m p, b < 256 := by
  refine ⟨rfl, by simp [to_seed], ?_⟩
  intro b hb
  simp only [to_seed, List.mem_map, List.mem_range] at hb
  obtain ⟨i, _, rfl⟩ := hb
  exact Nat.mod_lt _ (by norm_num)

lemma excessAux_eq_zero (fuel c : ℕ) (hc : c < 10 ^ 28) :
    excessAux fuel c = 0 := by
  cases fuel with
  | zero => rfl
  | succ f =>
    show (if c < 10 ^ 28 then 0 else excessAux f (c / 10) + 1) = 0
    rw [if_pos hc]

lemma excessDigits_eq_zero (c : ℕ) (hc : c < 10 ^ 28) : excessDigits c = 0 :=
  excessAux_eq_zero c c hc

lemma Dec.mul_exact (a b : Dec) (h : (a.mant * b.mant).natAbs < 10 ^ 28) :
    a.mul b = ⟨a.mant * b.mant, a.exp + b.exp⟩ := by
  unfold Dec.mul
  rw [if_pos (excessDigits_eq_zero _ h)]

lemma dec_scale_exact (d : Dec) (j : ℕ) (h : -(j : ℤ) ≤ d.exp)
    (hsmall : (d.mant * 10 ^ j).natAbs < 10 ^ 28) :
    (((d.mul (Dec.ofInt (10 ^ j))).toInt : ℤ) : ℚ) = d.val * 10 ^ j := by
  rw [Dec.mul_exact d (Dec.ofInt (10 ^ j)) hsmall]
  unfold Dec.ofInt Dec.toInt Dec.val
  simp only [add_zero]
  by_cases he : (0 : ℤ) ≤ d.exp
  · rw [if_pos he]
    have hz : (10 : ℚ) ^ d.exp = 10 ^ d.exp.toNat := by
      rw [← zpow_natCast, Int.toNat_of_nonneg he]
    rw [hz]
    push_cast
    ring
  · rw [if_neg he]
    push_neg at he
    have hjn : (((-d.exp).toNat : ℕ) : ℤ) = -d.exp := Int.toNat_of_nonneg (by omega)
    have hjnle : (-d.exp).toNat ≤ j := by omega
    have hsplit : d.mant * 10 ^ j
        = (d.mant * 10 ^ (j - (-d.exp).toNat)) * 10 ^ (-d.exp).toNat := by
      rw [mul_assoc, ← pow_add, Nat.sub_add_cancel hjnle]
    rw [hsplit, Int.mul_tdiv_cancel _ (by positivity)]
    have he2 : d.exp = -(((-d.exp).toNat : ℕ) : ℤ) := by omega
    have hpow : (10 : ℚ) ^ (j - (-d.exp).toNat) * 10 ^ (-d.exp).toNat = 10 ^ j := by
      rw [← pow_add, Nat.sub_add_cancel hjnle]
    rw [he2, zpow_neg, zpow_natCast, Int.cast_mul, Int.cast_pow]
    have h310 : ((10 : ℤ) : ℚ) = (10 : ℚ) := by norm_num
    rw [h310]
    have h10 : ((10 : ℚ) ^ (-d.exp).toNat) ≠ 0 := by positivity
    rw [mul_assoc, inv_mul_eq_div]
    congr 1
    rw [eq_div_iff h10]
    simp only [neg_neg, Int.toNat_natCast]
    exact hpow

/-! Claim theorems. -/

/-- C1: for every valid private key and every text message — the message
is universally quantified, so the empty string and strings with multibyte
characters are covered — verifying the signature produced by signing the
message recovers exactly the address derived from the key:
`verifyMessage(signMessage(k, m).signature, m) == addressOf(k)`. -/
theorem C1_sign_verify_round_trip (k : ℕ) (m : String)
    (h1 : 0 < k) (h2 : k < secp256k1_order) :
    ∃ sm, sign_message k m = Except.ok sm ∧
      verify_message sm.signature m = Except.ok (addressOf k) := by
  refine ⟨⟨m, sigBytes k (msgHash m), addressOf k⟩, ?_, ?_⟩
  · unfold sign_message
    rw [if_pos ⟨h1, h2⟩]
    simp only [recoverAddr_sigBytes]
  · exact recoverAddr_sigBytes k (msgHash m)

/-- Witness for C1 at a concrete key and a message containing multibyte
characters. -/
theorem C1_witness :
    ∃ sm, sign_message 7 "héllo ☺" = Except.ok sm ∧
      verify_message sm.signature "héllo ☺" = Except.ok (addressOf 7) :=
  C1_sign_verify_round_trip 7 "héllo ☺" (by decide) (by decide)

/-- C3: for every valid private key and text, `sign_message` returns a
record holding the original text, the 65-byte signature, and the signer
address recovered from that signature, and the attached address equals the
address derived from the signing key. -/
theorem C3_signed_record_self_check (k : ℕ) (m : String)
    (h1 : 0 < k) (h2 : k < secp256k1_order) :
    ∃ sm, sign_message k m = Except.ok sm ∧ sm.message = m ∧
      sm.signature.length = 65 ∧
      recoverAddr (msgHash m) sm.signature = Except.ok sm.address ∧
      sm.address = addressOf k := by
  refine ⟨⟨m, sigBytes k (msgHash m), addressOf k⟩, ?_, rfl,
    sigBytes_length k (msgHash m), ?_, rfl⟩
  · unfold sign_message
    rw [if_pos ⟨h1, h2⟩]
    simp only [recoverAddr_sigBytes]
  · exact recoverAddr_sigBytes k (msgHash m)

/-- Witness for C3 at a concrete key and the empty message. -/
theorem C3_witness :
    ∃ sm, sign_message 11 "" = Except.ok sm ∧ sm.message = "" ∧
      sm.signature.length = 65 ∧
      recoverAddr (msgHash "") sm.signature = Except.ok sm.address ∧
      sm.address = addressOf 11 :=
  C3_signed_record_self_check 11 "" (by decide) (by decide)

/-- C4 counterexample: the token "abandon1" contains a digit and so is not
a word of the BIP-39 wordlist, yet `mnemonic_to_seed` on a mnemonic
containing it returns a 64-byte seed instead of failing with
`InvalidMnemonic`. -/
theorem C4_counterexample :
    wordlistShaped "abandon1" = false ∧
    ∃ s, mnemonic_to_seed "abandon1 ability able about" "" = Except.ok s ∧
      s.length = 64 := by
  refine ⟨by decide, to_seed "abandon1 ability able about" "", rfl, ?_⟩
  exact (mnemonic_to_seed_total "abandon1 ability able about" "").2.1

/-- C4 amended: `toSeed` never fails on any input pair of strings — it
performs no wordlist membership or checksum validation and always derives
a 64-byte seed (the behaviour §9 of the design document records as the
observed reference behaviour). -/
theorem C4_never_fails_amended (m p : String) :
    ∃ s, mnemonic_to_seed m p = Except.ok s ∧ s.length = 64 :=
  ⟨to_seed m p, (mnemonic_to_seed_total m p).1, (mnemonic_to_seed_total m p).2.1⟩

/-- C5: the intended ETH-to-wei and Gwei-to-wei conversions (line 46 of
the source is a syntax error, see the doc comment of `eth_to_wei`) scale
by exactly ten to the 18th and ten to the 9th in decimal arithmetic: the
decimal 1.5 (mantissa 15, exponent -1) converts to exactly
1500000000000000000 wei and the decimal 2.5 to exactly 2500000000 wei,
and the conversion is exact for every decimal with at most 18 (resp. 9)
fractional digits whose scaled product fits the 28-significant-digit
precision of the default Decimal context. Beyond that precision even the
repaired code rounds, so the final conjunct shows the claim's
unrestricted no-rounding promise failing: a 29-significant-digit ETH
amount with 0 fractional digits is rounded half-to-even, its wei value
ending in ...790 instead of the exact ...789 followed by 18 zeros. -/
theorem C5_exact_unit_conversion :
    eth_to_wei ⟨15, -1⟩ = 1500000000000000000 ∧
    gwei_to_wei ⟨25, -1⟩ = 2500000000 ∧
    (∀ d : Dec, -18 ≤ d.exp → d.mant.natAbs < 10 ^ 10 →
      ((eth_to_wei d : ℤ) : ℚ) = d.val * 10 ^ (18 : ℕ)) ∧
    (∀ d : Dec, -9 ≤ d.exp → d.mant.natAbs < 10 ^ 19 →
      ((gwei_to_wei d : ℤ) : ℚ) = d.val * 10 ^ (9 : ℕ)) ∧
    eth_to_wei ⟨12345678901234567890123456789, 0⟩
      = 12345678901234567890123456790000000000000000000 := by
  refine ⟨by decide, by decide, ?_, ?_, by decide⟩
  · intro d hd hsize
    refine dec_scale_exact d 18 (by exact_mod_cast hd) ?_
    rw [Int.natAbs_mul]
    calc d.mant.natAbs * ((10 : ℤ) ^ 18).natAbs
        ≤ (10 ^ 10 - 1) * ((10 : ℤ) ^ 18).natAbs := by
          exact Nat.mul_le_mul_right _ (by omega)
      _ < 10 ^ 28 := by norm_num
  · intro d hd hsize
    refine dec_scale_exact d 9 (by exact_mod_cast hd) ?_
    rw [Int.natAbs_mul]
    calc d.mant.natAbs * ((10 : ℤ) ^ 9).natAbs
        ≤ (10 ^ 19 - 1) * ((10 : ℤ) ^ 9).natAbs := by
          exact Nat.mul_le_mul_right _ (by omega)
      _ < 10 ^ 28 := by norm_num

/-- Witness for C5 at the decimal 2.5 scaled to wei per ETH. -/
theorem C5_witness :
    ((eth_to_wei ⟨25, -1⟩ : ℤ) : ℚ) = (Dec.mk 25 (-1)).val * 10 ^ (18 : ℕ) :=
  C5_exact_unit_conversion.2.2.1 ⟨25, -1⟩ (by decide) (by decide)

/-- C6: account derivation is deterministic — two calls of
`derive_account_from_mnemonic` on identical (mnemonic, index, passphrase)
triples return identical addresses and identical private keys. -/
theorem C6_derivation_deterministic (m1 m2 : String) (i1 i2 : ℕ)
    (p1 p2 : String) (hm : m1 = m2) (hi : i1 = i2) (hp : p1 = p2) :
    (derive_account_from_mnemonic m1 i1 p1).1
        = (derive_account_from_mnemonic m2 i2 p2).1 ∧
      (derive_account_from_mnemonic m1 i1 p1).2
        = (derive_account_from_mnemonic m2 i2 p2).2 := by
  subst hm; subst hi; subst hp
  exact ⟨rfl, rfl⟩

/-- Witness for C6 at a concrete mnemonic, index and passphrase. -/
theorem C6_witness :
    (derive_account_from_mnemonic "legal winner thank year wave" 1 "tr").1
        = (derive_account_from_mnemonic "legal winner thank year wave" 1 "tr").1 ∧
      (derive_account_from_mnemonic "legal winner thank year wave" 1 "tr").2
        = (derive_account_from_mnemonic "legal winner thank year wave" 1 "tr").2 :=
  C6_derivation_deterministic _ _ _ _ _ _ rfl rfl rfl

/-- C10: `mnemonic_to_seed` is total — for every pair of input strings,
wordlist membership and checksum unchecked, it returns a 64-byte seed
(every entry a byte) and never an error. -/
theorem C10_seed_total (m p : String) :
    ∃ s, mnemonic_to_seed m p = Except.ok s ∧ s.length = 64 ∧
      ∀ b ∈ s, b < 256 := by
  obtain ⟨h1, h2, h3⟩ := mnemonic_to_seed_total m p
  exact ⟨to_seed m p, h1, h2, h3⟩

/-- C2 counterexample: a call supplying neither a legacy gas price nor a
fee-market pair does not fail with `MissingFeeParams` — the builder
returns a legacy transaction whose gasPrice is the collaborator's
suggested gas price (here 1000000000 wei). -/
theorem C2_counterexample :
    (build_eth_transaction sampleW3 "0xa" "0xb" ⟨1, 0⟩ none none none none
        none none).lookup "gasPrice" = some (TxVal.i 1000000000) ∧
      (build_eth_transaction sampleW3 "0xa" "0xb" ⟨1, 0⟩ none none none none
        none none).lookup "type" = none := by
  exact ⟨rfl, rfl⟩

/-- C2 amended: supplying both maxFee and maxPriorityFee yields the
fee-market variant (type tag "0x2", maxFeePerGas and maxPriorityFeePerGas
scaled from Gwei to wei, no gasPrice); in every other case — including
when neither a legacy gasPrice nor a complete fee-market pair is
supplied — the builder returns the legacy variant without raising, its
gasPrice being the supplied value scaled to wei when present and the
collaborator's suggested gas price otherwise. -/
theorem C2_fee_selection_amended (w3 : W3) (fa ta : String) (v : Dec)
    (gas : Option ℤ) (gp mpf mf : Option Dec) (nonce cid : Option ℤ) :
    (∀ a b, mf = some a → mpf = some b →
      (build_eth_transaction w3 fa ta v gas gp mpf mf nonce cid).lookup "type"
          = some (TxVal.s "0x2") ∧
        (build_eth_transaction w3 fa ta v gas gp mpf mf nonce cid).lookup
          "maxFeePerGas" = some (TxVal.i (gwei_to_wei a)) ∧
        (build_eth_transaction w3 fa ta v gas gp mpf mf nonce cid).lookup
          "maxPriorityFeePerGas" = some (TxVal.i (gwei_to_wei b)) ∧
        (build_eth_transaction w3 fa ta v gas gp mpf mf nonce cid).lookup
          "gasPrice" = none) ∧
    ((mf = none ∨ mpf = none) →
      (build_eth_transaction w3 fa ta v gas gp mpf mf nonce cid).lookup "type"
          = none ∧
        (build_eth_transaction w3 fa ta v gas gp mpf mf nonce cid).lookup
          "gasPrice" = some (TxVal.i (match gp with
            | none => w3.gas_price
            | some g => gwei_to_wei g))) := by
  constructor
  · rintro a b rfl rfl
    exact ⟨rfl, rfl, rfl, rfl⟩
  · intro hcase
    match mf, mpf, hcase with
    | none, none, _ => cases gp <;> exact ⟨rfl, rfl⟩
    | none, some _, _ => cases gp <;> exact ⟨rfl, rfl⟩
    | some _, none, _ => cases gp <;> exact ⟨rfl, rfl⟩
    | some _, some _, hcase => rcases hcase with h | h <;> cases h

/-- Witness for C2 at concrete inputs: a complete fee-market pair yields
the type tag, and an entirely omitted fee configuration yields the
collaborator's gas price. -/
theorem C2_witness :
    (build_eth_transaction sampleW3 "0xa" "0xb" ⟨1, 0⟩ none none (some ⟨3, 0⟩)
        (some ⟨2, 0⟩) none none).lookup "type" = some (TxVal.s "0x2") ∧
      (build_eth_transaction sampleW3 "0xa" "0xb" ⟨1, 0⟩ none none none none
        none none).lookup "gasPrice" = some (TxVal.i sampleW3.gas_price) := by
  constructor
  · exact ((C2_fee_selection_amended sampleW3 "0xa" "0xb" ⟨1, 0⟩ none none
      (some ⟨3, 0⟩) (some ⟨2, 0⟩) none none).1 ⟨2, 0⟩ ⟨3, 0⟩ rfl rfl).1
  · exact ((C2_fee_selection_amended sampleW3 "0xa" "0xb" ⟨1, 0⟩ none none
      none none none none).2 (Or.inl rfl)).2

/-- C7 counterexample: the record returned by a legacy build does not
exactly reflect the §3 Legacy variant {nonce, gasPrice, gasLimit, to,
value, data, chainId}: it has no data field and it carries an extra from
field. -/
theorem C7_counterexample :
    (build_eth_transaction sampleW3 "0xa" "0xb" ⟨1, 0⟩ none (some ⟨2, 0⟩) none
        none none none).lookup "data" = none ∧
      (build_eth_transaction sampleW3 "0xa" "0xb" ⟨1, 0⟩ none (some ⟨2, 0⟩)
        none none none none).lookup "from" = some (TxVal.s "0xa") := by
  exact ⟨rfl, rfl⟩

/-- C7 amended: every record returned by the builder carries the shared
fields (from, to, value, nonce, chainId, gas) plus the fee fields of
exactly one variant — either gasPrice alone (legacy) or the type tag with
maxFeePerGas and maxPriorityFeePerGas (fee-market) — and never fields of
both variants at once; unlike the §3 variants it has a from field and no
data field. -/
theorem C7_one_variant_amended (w3 : W3) (fa ta : String) (v : Dec)
    (gas : Option ℤ) (gp mpf mf : Option Dec) (nonce cid : Option ℤ) :
    (legacyShape (build_eth_transaction w3 fa ta v gas gp mpf mf nonce cid)
        || feeMarketShape (build_eth_transaction w3 fa ta v gas gp mpf mf nonce cid))
        = true ∧
      mixesVariants (build_eth_transaction w3 fa ta v gas gp mpf mf nonce cid)
        = false ∧
      (build_eth_transaction w3 fa ta v gas gp mpf mf nonce cid).lookup "data"
        = none ∧
      ((build_eth_transaction w3 fa ta v gas gp mpf mf nonce cid).lookup
        "from").isSome = true ∧
      ((build_eth_transaction w3 fa ta v gas gp mpf mf nonce cid).lookup
        "to").isSome = true ∧
      ((build_eth_transaction w3 fa ta v gas gp mpf mf nonce cid).lookup
        "value").isSome = true ∧
      ((build_eth_transaction w3 fa ta v gas gp mpf mf nonce cid).lookup
        "nonce").isSome = true ∧
      ((build_eth_transaction w3 fa ta v gas gp mpf mf nonce cid).lookup
        "chainId").isSome = true ∧
      ((build_eth_transaction w3 fa ta v gas gp mpf mf nonce cid).lookup
        "gas").isSome = true := by
  match mf, mpf with
  | none, none => cases gp <;> exact ⟨rfl, rfl, rfl, rfl, rfl, rfl, rfl, rfl, rfl⟩
  | none, some _ => cases gp <;> exact ⟨rfl, rfl, rfl, rfl, rfl, rfl, rfl, rfl, rfl⟩
  | some _, none => cases gp <;> exact ⟨rfl, rfl, rfl, rfl, rfl, rfl, rfl, rfl, rfl⟩
  | some _, some _ => exact ⟨rfl, rfl, rfl, rfl, rfl, rfl, rfl, rfl, rfl⟩

/-- C8: supplying exactly one of the two fee-market parameters raises no
error — the builder silently ignores it and returns a legacy transaction
whose gasPrice is the supplied Gwei value scaled to wei when present and
the collaborator's suggested gas price otherwise. -/
theorem C8_single_fee_param_legacy (w3 : W3) (fa ta : String) (v : Dec)
    (gas : Option ℤ) (gp : Option Dec) (a : Dec) (mpf mf : Option Dec)
    (nonce cid : Option ℤ)
    (hone : (mf = some a ∧ mpf = none) ∨ (mf = none ∧ mpf = some a)) :
    (build_eth_transaction w3 fa ta v gas gp mpf mf nonce cid).lookup "type"
        = none ∧
      (build_eth_transaction w3 fa ta v gas gp mpf mf nonce cid).lookup
        "maxFeePerGas" = none ∧
      (build_eth_transaction w3 fa ta v gas gp mpf mf nonce cid).lookup
        "maxPriorityFeePerGas" = none ∧
      (build_eth_transaction w3 fa ta v gas gp mpf mf nonce cid).lookup
        "gasPrice" = some (TxVal.i (match gp with
          | none => w3.gas_price
          | some g => gwei_to_wei g)) := by
  rcases hone with ⟨rfl, rfl⟩ | ⟨rfl, rfl⟩ <;> cases gp <;>
    exact ⟨rfl, rfl, rfl, rfl⟩

/-- Witness for C8: only maxFee supplied, no gas price given — the result
is a legacy transaction priced by the collaborator. -/
theorem C8_witness :
    (build_eth_transaction sampleW3 "0xa" "0xb" ⟨1, 0⟩ none none none
        (some ⟨2, 0⟩) none none).lookup "type" = none ∧
      (build_eth_transaction sampleW3 "0xa" "0xb" ⟨1, 0⟩ none none none
        (some ⟨2, 0⟩) none none).lookup "gasPrice"
        = some (TxVal.i sampleW3.gas_price) := by
  have h := C8_single_fee_param_legacy sampleW3 "0xa" "0xb" ⟨1, 0⟩ none none
    ⟨2, 0⟩ none (some ⟨2, 0⟩) none none (Or.inl ⟨rfl, rfl⟩)
  exact ⟨h.1, h.2.2.2⟩

/-- C9: a supplied chain id of 0 is replaced by the collaborator's chain
id (Python `chain_id or w3.eth.chain_id` treats 0 as falsy), while every
non-zero supplied chain id is used as given. -/
theorem C9_zero_chain_id_fallback (w3 : W3) (fa ta : String) (v : Dec)
    (gas : Option ℤ) (gp mpf mf : Option Dec) (nonce : Option ℤ) (c : ℤ) :
    (build_eth_transaction w3 fa ta v gas gp mpf mf nonce (some c)).lookup
        "chainId" = some (TxVal.i (if c = 0 then w3.chain_id else c)) := by
  match mf, mpf with
  | none, none => cases gp <;> exact rfl
  | none, some _ => cases gp <;> exact rfl
  | some _, none => cases gp <;> exact rfl
  | some _, some _ => exact rfl

end AtlasCryptoKit
